import Mathlib

/-!
Shallow embedding of the BeatGuessr buzzer-mode room state machine
(`src/backend/buzzer.py`) and theorems about its specified behaviour.

Rooms are Python dicts; we embed them as a `Room` structure.  The `players`
dict (insertion-ordered, unique keys) becomes an association list, Python
sets (`locked_out`, `used_song_ids`) become lists used up to membership,
and each socket handler becomes a pure function from the incoming
connection id and the room to the updated room (handlers that can `emit` an
error return `Room × Option String`, the error message mirroring the
source; the room component is the state after the handler ran).
`random.choice(available)` is modelled by an arbitrary index `k`, reduced
modulo the pool size.
-/

namespace BeatGuessr

structure Song where
  id : Nat
  title : String
  artist : String
  preview_url : String
  deriving DecidableEq

structure Player where
  name : String
  score : Nat
  connected : Bool
  deriving DecidableEq

structure Room where
  host_sid : String
  host_connected : Bool
  max_score : Nat
  players : List (String × Player)
  current_song : Option Song
  round_active : Bool
  buzz_queue : List String
  current_buzzer : Option String
  locked_out : List String
  used_song_ids : List Nat
  game_started : Bool
  game_ended : Bool
  winner : Option String
  deriving DecidableEq

/-- Python `room["players"].get(sid)`: first entry with the given key. -/
def playersGet (ps : List (String × Player)) (sid : String) : Option Player :=
  match ps with
  | [] => none
  | e :: rest => if e.1 = sid then some e.2 else playersGet rest sid

/-- Python `room["players"][sid] = v`: replace in place, or append if absent. -/
def playersSet (ps : List (String × Player)) (sid : String) (v : Player) :
    List (String × Player) :=
  match ps with
  | [] => [(sid, v)]
  | e :: rest => if e.1 = sid then (sid, v) :: rest else e :: playersSet rest sid v

/-- Python `del room["players"][sid]` and `room["players"].pop(sid)`. -/
def playersPop (ps : List (String × Player)) (sid : String) : List (String × Player) :=
  match ps with
  | [] => []
  | e :: rest => if e.1 = sid then playersPop rest sid else e :: playersPop rest sid

/-- Python `set.add`. -/
def insertSid (l : List String) (x : String) : List String :=
  if x ∈ l then l else l ++ [x]

/-- Python `set.discard`. -/
def discardSid (l : List String) (x : String) : List String :=
  l.filter (fun y => y ≠ x)

/-- Python `set.add` on the used-song-id set. -/
def insertSongId (l : List Nat) (x : Nat) : List Nat :=
  if x ∈ l then l else l ++ [x]

/-- Substitute one connection id for another in the buzz queue
(`[sid if x == existing_sid else x for x in room["buzz_queue"]]`). -/
def subSid (old new : String) (l : List String) : List String :=
  l.map (fun x => if x = old then new else x)

/-- The Python `str.lower()` method: character-wise lower-casing.  Written over the
character list (rather than `String.toLower`, whose `String.map` is
well-founded recursion) so that it evaluates inside the kernel. -/
def lowerStr (s : String) : String :=
  ⟨s.data.map Char.toLower⟩

/-- The rejoin scan in `handle_join_room`: first player whose name matches
case-insensitively and whose `connected` flag is false. -/
def findRejoin (ps : List (String × Player)) (name : String) :
    Option (String × Player) :=
  ps.find? (fun e => lowerStr e.2.name == lowerStr name && e.2.connected == false)

/-- Connection ids of currently-connected players (iteration order). -/
def connectedSids (ps : List (String × Player)) : List String :=
  (ps.filter (fun e => e.2.connected)).map (fun e => e.1)

/-- Python `room["locked_out"] >= set(connected_players)`. -/
def allConnectedLocked (ps : List (String × Player)) (locked : List String) : Bool :=
  (connectedSids ps).all (fun s => decide (s ∈ locked))

/-- Number of connected players (used to state the capacity rule of the spec). -/
def connectedCount (ps : List (String × Player)) : Nat :=
  (ps.filter (fun e => e.2.connected)).length

/-- Fresh room as built by `handle_create_room`. -/
def initRoom (host_sid : String) (max_score : Nat) : Room :=
  { host_sid := host_sid
    host_connected := true
    max_score := max_score
    players := []
    current_song := none
    round_active := false
    buzz_queue := []
    current_buzzer := none
    locked_out := []
    used_song_ids := []
    game_started := false
    game_ended := false
    winner := none }

/-- The `handle_join_room` handler for a resolved room.  Inputs are pre-normalised
(`roomCode.upper()` resolution is external, `playerName` already stripped). -/
def handle_join_room (sid name : String) (r : Room) : Room × Option String :=
  if name = "" then (r, some "Raumcode und Name erforderlich")
  else if r.game_ended then (r, some "Spiel ist bereits beendet")
  else
    match findRejoin r.players name with
    | some op =>
      let pd := { op.2 with connected := true }
      ({ r with
          players := playersPop r.players op.1 ++ [(sid, pd)]
          buzz_queue := subSid op.1 sid r.buzz_queue
          current_buzzer :=
            if r.current_buzzer = some op.1 then some sid else r.current_buzzer
          locked_out :=
            if op.1 ∈ r.locked_out then insertSid (discardSid r.locked_out op.1) sid
            else r.locked_out }, none)
    | none =>
      if 8 ≤ r.players.length then (r, some "Raum ist voll (max. 8 Spieler)")
      else ({ r with players := r.players ++ [(sid, ⟨name, 0, true⟩)] }, none)

/-- The `handle_leave_room` handler: removes the player record outright, nothing else. -/
def handle_leave_room (sid : String) (r : Room) : Room :=
  if (playersGet r.players sid).isSome then
    { r with players := playersPop r.players sid }
  else r

/-- The `handle_disconnect` handler restricted to one room. -/
def handle_disconnect (sid : String) (r : Room) : Room :=
  if r.host_sid = sid then { r with host_connected := false }
  else
    match playersGet r.players sid with
    | some p => { r with players := playersSet r.players sid { p with connected := false } }
    | none => r

/-- The `handle_start_game` handler. -/
def handle_start_game (sid : String) (r : Room) : Room × Option String :=
  if r.host_sid ≠ sid then (r, some "Nur der Host kann das Spiel starten")
  else if r.players.length < 1 then (r, some "Mindestens 1 Spieler erforderlich")
  else ({ r with game_started := true }, none)

/-- Python `available = [s for s in all_songs if s["id"] not in used_song_ids]`. -/
def availableSongs (songs : List Song) (used : List Nat) : List Song :=
  songs.filter (fun s => s.id ∉ used)

/-- The pool `handle_start_round` draws from: the unused songs, or — when
those are exhausted — the full catalog after the used set is cleared. -/
def startRoundPool (songs : List Song) (used : List Nat) : List Song :=
  if (availableSongs songs used).isEmpty then songs else availableSongs songs used

/-- The used-song set as it stands right before the draw: cleared exactly
when the unused pool was exhausted (the source clears it before the
emptiness re-check, so the cleared set survives into the error case). -/
def startRoundUsed0 (songs : List Song) (used : List Nat) : List Nat :=
  if (availableSongs songs used).isEmpty then [] else used

/-- The `handle_start_round` handler.  `songs` is `songs_data["songs"]`; `k` resolves the
`random.choice` by indexing the pool modulo its length. -/
def handle_start_round (sid : String) (songs : List Song) (k : Nat) (r : Room) :
    Room × Option String :=
  if r.host_sid ≠ sid then (r, none)
  else if r.game_ended then (r, none)
  else
    match (startRoundPool songs r.used_song_ids).get?
        (k % (startRoundPool songs r.used_song_ids).length) with
    | none =>
      ({ r with used_song_ids := startRoundUsed0 songs r.used_song_ids },
        some "Keine Songs verfügbar")
    | some song =>
      ({ r with
          used_song_ids := insertSongId (startRoundUsed0 songs r.used_song_ids) song.id
          current_song := some song
          round_active := true
          buzz_queue := []
          current_buzzer := none
          locked_out := [] }, none)

/-- The `handle_buzz` handler. -/
def handle_buzz (sid : String) (r : Room) : Room :=
  if r.round_active = false then r
  else if (playersGet r.players sid).isNone then r
  else if sid ∈ r.buzz_queue ∨ sid ∈ r.locked_out then r
  else
    { r with
        buzz_queue := r.buzz_queue ++ [sid]
        current_buzzer :=
          if r.current_buzzer = none then some sid else r.current_buzzer }

/-- The `handle_judge` handler. -/
def handle_judge (sid : String) (correct_artist correct_title : Bool) (r : Room) : Room :=
  if r.host_sid ≠ sid then r
  else
    match r.current_buzzer with
    | none => r
    | some buzzer_sid =>
      match playersGet r.players buzzer_sid with
      | none => r
      | some buzzer =>
        let points := (if correct_artist then 1 else 0) + (if correct_title then 1 else 0)
        if 0 < points then
          let newScore := buzzer.score + points
          let players' := playersSet r.players buzzer_sid { buzzer with score := newScore }
          if r.max_score ≤ newScore then
            { r with
                players := players'
                round_active := false
                current_buzzer := none
                game_ended := true
                winner := some buzzer.name }
          else
            { r with players := players', round_active := false, current_buzzer := none }
        else
          let locked' := insertSid r.locked_out buzzer_sid
          let queue' := r.buzz_queue.erase buzzer_sid
          if allConnectedLocked r.players locked' then
            { r with
                locked_out := locked'
                buzz_queue := queue'
                current_buzzer := queue'.head?
                round_active := false }
          else
            { r with
                locked_out := locked'
                buzz_queue := queue'
                current_buzzer := queue'.head? }

/-- The `handle_skip_round` handler. -/
def handle_skip_round (sid : String) (r : Room) : Room :=
  if r.host_sid ≠ sid then r
  else { r with round_active := false, current_buzzer := none, buzz_queue := [] }

/-- Python `max(players.values(), key=score)`: keeps the first maximum,
replacing only on strictly greater score. -/
def maxScorePlayer (best : Player) (rest : List (String × Player)) : Player :=
  match rest with
  | [] => best
  | e :: rest => maxScorePlayer (if best.score < e.2.score then e.2 else best) rest

/-- The `handle_end_game` handler. -/
def handle_end_game (sid : String) (r : Room) : Room :=
  if r.host_sid ≠ sid then r
  else
    match r.players with
    | [] => { r with game_ended := true, round_active := false }
    | e :: rest =>
      { r with
          game_ended := true
          round_active := false
          winner := some (maxScorePlayer e.2 rest).name }

/-- The `handle_host_rejoin` handler. -/
def handle_host_rejoin (sid : String) (r : Room) : Room × Option String :=
  if r.host_connected = false then
    ({ r with host_sid := sid, host_connected := true }, none)
  else (r, some "Host ist bereits verbunden")

structure PlayerView where
  id : String
  name : String
  score : Nat
  isLockedOut : Bool
  isConnected : Bool
  deriving DecidableEq

structure RoomView where
  roomCode : String
  maxScore : Nat
  players : List PlayerView
  roundActive : Bool
  currentBuzzer : Option (String × String)
  buzzQueue : List (String × String)
  gameStarted : Bool
  gameEnded : Bool
  winner : Option String
  currentSong : Option Song
  deriving DecidableEq

/-- Stable insertion for the score-descending sort: an element moves past an
earlier one only on strictly greater score, matching the stable Python
`sort(key=score, reverse=True)`. -/
def insertDesc (p : PlayerView) : List PlayerView → List PlayerView
  | [] => [p]
  | q :: rest => if p.score < q.score then q :: insertDesc p rest else p :: q :: rest

def sortByScoreDesc : List PlayerView → List PlayerView
  | [] => []
  | p :: rest => insertDesc p (sortByScoreDesc rest)

/-- The `get_room_state` projection, role-filtered.  The current song is
attached only when `for_host` (and stays `none` when unset, matching the
truthiness guard in the source). -/
def get_room_state (room_code : String) (for_host : Bool) (r : Room) : RoomView :=
  { roomCode := room_code
    maxScore := r.max_score
    players :=
      sortByScoreDesc (r.players.map (fun e =>
        { id := e.1
          name := e.2.name
          score := e.2.score
          isLockedOut := decide (e.1 ∈ r.locked_out)
          isConnected := e.2.connected }))
    roundActive := r.round_active
    currentBuzzer :=
      match r.current_buzzer with
      | some b =>
        match playersGet r.players b with
        | some p => some (b, p.name)
        | none => none
      | none => none
    buzzQueue :=
      r.buzz_queue.filterMap (fun s => (playersGet r.players s).map (fun p => (s, p.name)))
    gameStarted := r.game_started
    gameEnded := r.game_ended
    winner := r.winner
    currentSong := if for_host then r.current_song else none }

/-- Commands a client can send against one room. -/
inductive Op where
  | join (sid name : String)
  | leave (sid : String)
  | disconnect (sid : String)
  | startGame (sid : String)
  | startRound (sid : String) (k : Nat)
  | buzz (sid : String)
  | judge (sid : String) (ca ct : Bool)
  | skipRound (sid : String)
  | endGame (sid : String)
  | hostRejoin (sid : String)
  deriving DecidableEq

def step (songs : List Song) (r : Room) : Op → Room
  | .join sid name => (handle_join_room sid name r).1
  | .leave sid => handle_leave_room sid r
  | .disconnect sid => handle_disconnect sid r
  | .startGame sid => (handle_start_game sid r).1
  | .startRound sid k => (handle_start_round sid songs k r).1
  | .buzz sid => handle_buzz sid r
  | .judge sid ca ct => handle_judge sid ca ct r
  | .skipRound sid => handle_skip_round sid r
  | .endGame sid => handle_end_game sid r
  | .hostRejoin sid => (handle_host_rejoin sid r).1

/-- A joining connection id is fresh for the room: the transport layer never
reuses a socket id, so the id of a new connection cannot already occur in the
room state. -/
def freshConn (r : Room) (sid : String) : Bool :=
  (playersGet r.players sid).isNone && decide (sid ∉ r.buzz_queue) &&
    decide (sid ∉ r.locked_out) && decide (r.current_buzzer ≠ some sid)

/-- Every `join` in the sequence uses a connection id fresh for the room
state at the moment it is applied. -/
def opsOK (songs : List Song) : Room → List Op → Bool
  | _, [] => true
  | r, op :: rest =>
    (match op with
     | .join sid _ => freshConn r sid
     | _ => true) && opsOK songs (step songs r op) rest

def runOps (songs : List Song) (r : Room) (ops : List Op) : Room :=
  ops.foldl (step songs) r

/-- Buzz bookkeeping well-formedness: the queue has no duplicates, queue
members are never locked out, and the current buzzer (when set) is queued.
The last two conjuncts are the claimed invariant; the first is the
auxiliary strengthening the induction needs. -/
def Inv (r : Room) : Prop :=
  r.buzz_queue.Nodup ∧ (∀ x ∈ r.buzz_queue, x ∉ r.locked_out) ∧
    (∀ b, r.current_buzzer = some b → b ∈ r.buzz_queue)

/-! Concrete rooms and inputs used to evaluate the handlers at specific
states. -/

def songA : Song := ⟨1, "Song One", "Artist One", "urlA"⟩

def songB : Song := ⟨2, "Song Two", "Artist Two", "urlB"⟩

/-- Host `h`, one player `a` (Alice), mid-round with `a` as current buzzer. -/
def roomC1 : Room :=
  { initRoom "h" 10 with
      players := [("a", ⟨"Alice", 0, true⟩)]
      game_started := true
      round_active := true
      current_song := some songA
      buzz_queue := ["a"]
      current_buzzer := some "a"
      used_song_ids := [1] }

/-- Eight player records, seven connected plus one disconnected ghost
(`alice`): the connected-player count of the spec is 7. -/
def roomC6 : Room :=
  { initRoom "h" 10 with
      players := [("s1", ⟨"p1", 0, true⟩), ("s2", ⟨"p2", 0, true⟩),
                  ("s3", ⟨"p3", 0, true⟩), ("s4", ⟨"p4", 0, true⟩),
                  ("s5", ⟨"p5", 0, true⟩), ("s6", ⟨"p6", 0, true⟩),
                  ("s7", ⟨"p7", 0, true⟩), ("s8", ⟨"alice", 0, false⟩)]
      game_started := true }

/-- Two connected players, fresh active round (empty queue, no buzzer). -/
def roomW2 : Room :=
  { initRoom "h" 10 with
      players := [("a", ⟨"Alice", 0, true⟩), ("b", ⟨"Bob", 0, true⟩)]
      game_started := true
      round_active := true
      current_song := some songA
      used_song_ids := [1] }

/-- Disconnected Alice (score 3) still standing in the queue, as current
buzzer and locked out; Bob connected. -/
def roomW3 : Room :=
  { initRoom "h" 10 with
      players := [("o", ⟨"Alice", 3, false⟩), ("b2", ⟨"Bob", 1, true⟩)]
      game_started := true
      round_active := true
      current_song := some songA
      buzz_queue := ["o", "b2"]
      current_buzzer := some "o"
      locked_out := ["o"]
      used_song_ids := [1] }

/-- Mid-round: Alice buzzed first, Bob second; nobody locked out yet. -/
def roomW5 : Room :=
  { initRoom "h" 10 with
      players := [("a", ⟨"Alice", 0, true⟩), ("b", ⟨"Bob", 0, true⟩)]
      game_started := true
      round_active := true
      current_song := some songA
      buzz_queue := ["a", "b"]
      current_buzzer := some "a"
      used_song_ids := [1] }

/-- Every catalog song already used. -/
def roomW7 : Room :=
  { initRoom "h" 10 with
      players := [("a", ⟨"Alice", 0, true⟩)]
      game_started := true
      used_song_ids := [1, 2] }

def songsW : List Song := [songA]

def opsW : List Op := [.join "a" "Alice", .startGame "h", .startRound "h" 0, .buzz "a"]

/-- Operation sequence in which a live, already-joined member (`x`, playing
as Bob) re-sends `join_room` with the name of a disconnected ghost (`g`,
Alice) right after being locked out.  All connection ids are distinct — no
socket-id reuse is involved. -/
def opsC9 : List Op :=
  [.join "x" "Bob", .join "g" "Alice", .join "y" "Carol",
   .startGame "h", .startRound "h" 0, .buzz "x", .buzz "g", .disconnect "g",
   .judge "h" false false, .join "x" "Alice"]

/-! Basic lemmas about the set/assoc-list helpers. -/

lemma mem_insertSid {l : List String} {x y : String} :
    y ∈ insertSid l x ↔ y ∈ l ∨ y = x := by
  unfold insertSid
  split
  · rename_i h
    constructor
    · exact Or.inl
    · rintro (hy | rfl)
      · exact hy
      · exact h
  · simp [List.mem_append]

lemma mem_discardSid {l : List String} {x y : String} :
    y ∈ discardSid l x ↔ y ∈ l ∧ y ≠ x := by
  simp [discardSid, List.mem_filter]

lemma mem_insertSongId_self {l : List Nat} {x : Nat} : x ∈ insertSongId l x := by
  unfold insertSongId
  split
  · assumption
  · simp

lemma head?_mem {l : List String} {a : String} (h : l.head? = some a) : a ∈ l := by
  cases l with
  | nil => simp at h
  | cons b t =>
    simp only [List.head?_cons, Option.some.injEq] at h
    subst h
    exact List.mem_cons_self _ _

lemma playersGet_cons (e : String × Player) (rest : List (String × Player))
    (sid : String) :
    playersGet (e :: rest) sid = if e.1 = sid then some e.2 else playersGet rest sid :=
  rfl

lemma playersGet_append_left_none {ps qs : List (String × Player)} {sid : String}
    (h : playersGet ps sid = none) :
    playersGet (ps ++ qs) sid = playersGet qs sid := by
  induction ps with
  | nil => rfl
  | cons e rest ih =>
    rw [playersGet_cons] at h
    by_cases he : e.1 = sid
    · rw [if_pos he] at h
      exact absurd h (by simp)
    · rw [if_neg he] at h
      rw [List.cons_append, playersGet_cons, if_neg he]
      exact ih h

lemma playersGet_pop_self (ps : List (String × Player)) (sid : String) :
    playersGet (playersPop ps sid) sid = none := by
  induction ps with
  | nil => rfl
  | cons e rest ih =>
    unfold playersPop
    by_cases he : e.1 = sid
    · simpa [he]
    · simpa [playersGet, he]

lemma playersGet_pop_of_none {ps : List (String × Player)} {x sid : String}
    (h : playersGet ps sid = none) :
    playersGet (playersPop ps x) sid = none := by
  induction ps with
  | nil => rfl
  | cons e rest ih =>
    unfold playersGet at h
    by_cases he : e.1 = sid
    · simp [he] at h
    · simp only [he, if_false] at h
      unfold playersPop
      by_cases hx : e.1 = x
      · simpa [hx] using ih h
      · simpa [playersGet, hx, he] using ih h

lemma findRejoin_key_isSome {ps : List (String × Player)} {name : String}
    {op : String × Player} (h : findRejoin ps name = some op) :
    (playersGet ps op.1).isSome := by
  induction ps with
  | nil => simp [findRejoin] at h
  | cons e rest ih =>
    unfold findRejoin at h
    rw [List.find?_cons] at h
    rw [playersGet_cons]
    cases hp : (lowerStr e.2.name == lowerStr name && e.2.connected == false) with
    | true =>
      simp only [hp] at h
      obtain rfl : e = op := by simpa using h
      simp
    | false =>
      simp only [hp] at h
      by_cases he : e.1 = op.1
      · simp [he]
      · simpa [he] using ih h

/-! Lemmas about queue substitution on rejoin. -/

lemma mem_subSid {old new : String} {l : List String} {x : String} :
    x ∈ subSid old new l ↔ ∃ y ∈ l, (if y = old then new else y) = x := by
  simp [subSid, List.mem_map]

lemma not_mem_subSid_old {old new : String} {l : List String} (h : new ≠ old) :
    old ∉ subSid old new l := by
  intro hmem
  rw [mem_subSid] at hmem
  obtain ⟨y, _, he⟩ := hmem
  by_cases hy : y = old
  · rw [if_pos hy] at he
    exact h he
  · rw [if_neg hy] at he
    exact hy he

lemma mem_subSid_of_mem {old new y : String} {l : List String}
    (hy : y ∈ l) (hne : y ≠ old) : y ∈ subSid old new l := by
  rw [mem_subSid]
  exact ⟨y, hy, if_neg hne⟩

lemma new_mem_subSid {old new : String} {l : List String} (h : old ∈ l) :
    new ∈ subSid old new l := by
  rw [mem_subSid]
  exact ⟨old, h, if_pos rfl⟩

lemma subSid_eq_of_not_mem {old new : String} {l : List String} (h : old ∉ l) :
    subSid old new l = l := by
  induction l with
  | nil => rfl
  | cons a t ih =>
    have ha : a ≠ old := fun hh => h (hh ▸ List.mem_cons_self _ _)
    have ht : old ∉ t := fun hh => h (List.mem_cons_of_mem _ hh)
    simp only [subSid, List.map_cons, if_neg ha]
    rw [show t.map (fun x => if x = old then new else x) = subSid old new t from rfl, ih ht]

lemma subSid_nodup {old new : String} {l : List String}
    (hn : l.Nodup) (hnew : new ∉ l) : (subSid old new l).Nodup := by
  induction l with
  | nil => simp [subSid]
  | cons a t ih =>
    rw [List.nodup_cons] at hn
    have hnew_t : new ∉ t := fun h => hnew (List.mem_cons_of_mem _ h)
    have hna : a ≠ new := by
      rintro rfl
      exact hnew (List.mem_cons_self _ _)
    simp only [subSid, List.map_cons]
    rw [List.nodup_cons]
    refine ⟨?_, ih hn.2 hnew_t⟩
    intro hmem
    rw [show t.map (fun x => if x = old then new else x) = subSid old new t from rfl,
      mem_subSid] at hmem
    obtain ⟨y, hyt, hye⟩ := hmem
    by_cases hao : a = old
    · rw [if_pos hao] at hye
      by_cases hy : y = old
      · exact hn.1 (hao ▸ hy ▸ hyt)
      · rw [if_neg hy] at hye
        exact hnew_t (hye ▸ hyt)
    · rw [if_neg hao] at hye
      by_cases hy : y = old
      · rw [if_pos hy] at hye
        exact hna hye.symm
      · rw [if_neg hy] at hye
        exact hn.1 (hye ▸ hyt)

/-! Shape lemmas for `handle_buzz`. -/

lemma handle_buzz_noop (sid : String) {r : Room}
    (h : r.round_active = false ∨ playersGet r.players sid = none ∨
      sid ∈ r.buzz_queue ∨ sid ∈ r.locked_out) :
    handle_buzz sid r = r := by
  unfold handle_buzz
  by_cases hA : r.round_active = false
  · simp [hA]
  · rw [if_neg hA]
    by_cases hB : (playersGet r.players sid).isNone = true
    · simp [hB]
    · rw [if_neg hB]
      have hC : sid ∈ r.buzz_queue ∨ sid ∈ r.locked_out := by
        rcases h with h | h | h | h
        · exact absurd h hA
        · exact absurd (by simp [h]) hB
        · exact Or.inl h
        · exact Or.inr h
      rw [if_pos hC]

lemma handle_buzz_pass {sid : String} {r : Room}
    (hA : r.round_active = true) (hB : (playersGet r.players sid).isSome)
    (hQ : sid ∉ r.buzz_queue) (hL : sid ∉ r.locked_out) :
    handle_buzz sid r =
      { r with
          buzz_queue := r.buzz_queue ++ [sid]
          current_buzzer :=
            if r.current_buzzer = none then some sid else r.current_buzzer } := by
  unfold handle_buzz
  have hA' : ¬ r.round_active = false := by simp [hA]
  have hB' : ¬ (playersGet r.players sid).isNone = true := by
    rw [Option.isNone_iff_eq_none]
    intro hn
    rw [hn] at hB
    simp at hB
  have hC : ¬ (sid ∈ r.buzz_queue ∨ sid ∈ r.locked_out) := by
    rintro (h | h)
    · exact hQ h
    · exact hL h
  rw [if_neg hA', if_neg hB', if_neg hC]

/-- Claim C4: the player-view projection never contains the current song record,
the host-view projection of the same state carries the full current song
record when one is set, and the player view is identical for any two room
states differing only in `currentSong`. -/
theorem projection_hides_current_song (r : Room) (code : String) (s : Option Song) :
    (get_room_state code false r).currentSong = none ∧
    (get_room_state code true r).currentSong = r.current_song ∧
    get_room_state code false { r with current_song := s } = get_room_state code false r :=
  ⟨rfl, rfl, rfl⟩

/-- Claim C8: a `Buzz` by a connection already queued, or locked out, or while no
round is active, or that is not a room member, leaves the room unchanged;
and `Buzz` applied twice by the same connection equals `Buzz` applied
once. -/
theorem buzz_idempotent_safe (r : Room) (sid : String) :
    ((sid ∈ r.buzz_queue ∨ sid ∈ r.locked_out ∨ r.round_active = false ∨
        playersGet r.players sid = none) → handle_buzz sid r = r) ∧
    handle_buzz sid (handle_buzz sid r) = handle_buzz sid r := by
  constructor
  · intro h
    apply handle_buzz_noop
    tauto
  · by_cases hA : r.round_active = false
    · have h1 := handle_buzz_noop sid (Or.inl hA)
      rw [h1, h1]
    by_cases hB : playersGet r.players sid = none
    · have h1 := handle_buzz_noop sid (Or.inr (Or.inl hB))
      rw [h1, h1]
    by_cases hQ : sid ∈ r.buzz_queue
    · have h1 := handle_buzz_noop sid (Or.inr (Or.inr (Or.inl hQ)))
      rw [h1, h1]
    by_cases hL : sid ∈ r.locked_out
    · have h1 := handle_buzz_noop sid (Or.inr (Or.inr (Or.inr hL)))
      rw [h1, h1]
    have hA' : r.round_active = true := by
      revert hA
      cases r.round_active <;> simp
    have hB' : (playersGet r.players sid).isSome := by
      revert hB
      cases playersGet r.players sid <;> simp
    rw [handle_buzz_pass hA' hB' hQ hL]
    apply handle_buzz_noop
    right
    right
    left
    simp

theorem buzz_idempotent_safe_witness :
    handle_buzz "a" roomC1 = roomC1 ∧
    handle_buzz "a" (handle_buzz "a" roomC1) = handle_buzz "a" roomC1 :=
  ⟨(buzz_idempotent_safe roomC1 "a").1 (Or.inl (by decide)),
    (buzz_idempotent_safe roomC1 "a").2⟩

/-- Claim C1 (code bug evidence): `handle_end_game` during an active round keeps
the buzz queue and current buzzer; the room then has `game_ended = true`,
yet `handle_judge` still accepts the judgment and mutates the room (it
locks out the buzzer and pops the queue), because the source never checks
`game_ended` in the judge handler. -/
theorem judge_after_end_game_mutates_state :
    (handle_end_game "h" roomC1).game_ended = true ∧
    (handle_end_game "h" roomC1).current_buzzer = some "a" ∧
    (handle_judge "h" false false (handle_end_game "h" roomC1)).locked_out = ["a"] ∧
    handle_judge "h" false false (handle_end_game "h" roomC1) ≠
      handle_end_game "h" roomC1 := by
  decide

/-- Claim C6 counterexample: in `roomC6` only 7 players are connected (the eighth
record is a disconnected ghost), yet a join with a fresh name is rejected
with the room-full error, because the source compares the total player
count — not the connected-player count — against 8. -/
theorem join_room_full_counterexample :
    connectedCount roomC6.players = 7 ∧
    ¬ 8 ≤ connectedCount roomC6.players ∧
    findRejoin roomC6.players "bob" = none ∧
    (handle_join_room "z" "bob" roomC6).2 = some "Raum ist voll (max. 8 Spieler)" ∧
    (handle_join_room "z" "bob" roomC6).1 = roomC6 := by
  decide

/-- Claim C6 (amended): a join whose name matches no disconnected player is
rejected with the room-full error exactly when the total count of player
records (connected or not) is at least 8, leaving the room unchanged; a
join into an ended game is rejected with the game-already-ended error. -/
theorem join_capacity_and_ended (r : Room) (sid name : String) (hname : name ≠ "") :
    (r.game_ended = true → handle_join_room sid name r = (r, some "Spiel ist bereits beendet")) ∧
    (r.game_ended = false → findRejoin r.players name = none →
      (((handle_join_room sid name r).2 = some "Raum ist voll (max. 8 Spieler)") ↔
          8 ≤ r.players.length) ∧
      (8 ≤ r.players.length → (handle_join_room sid name r).1 = r)) := by
  constructor
  · intro he
    simp [handle_join_room, hname, he]
  · intro he hf
    simp only [handle_join_room, if_neg hname, he, Bool.false_eq_true, if_false, hf]
    by_cases hc : 8 ≤ r.players.length
    · simp [hc]
    · simp [hc]

theorem join_capacity_and_ended_witness :
    ((handle_join_room "z" "bob" roomC6).2 = some "Raum ist voll (max. 8 Spieler)" ↔
        8 ≤ roomC6.players.length) ∧
    (8 ≤ roomC6.players.length → (handle_join_room "z" "bob" roomC6).1 = roomC6) :=
  (join_capacity_and_ended roomC6 "z" "bob" (by decide)).2 (by decide) (by decide)

/-- Claim C10: after the current buzzer explicitly leaves, its identity stays in
the buzz queue and in `current_buzzer` (leave removes only the player
record), and a subsequent judge call by the host — any flags — leaves the
room unchanged because the player record of the buzzer is gone. -/
theorem judge_after_buzzer_leave_noop (r : Room) (s : String) (p : Player)
    (hb : r.current_buzzer = some s) (hq : s ∈ r.buzz_queue)
    (hp : playersGet r.players s = some p) (ca ct : Bool) :
    (handle_leave_room s r).current_buzzer = some s ∧
    s ∈ (handle_leave_room s r).buzz_queue ∧
    handle_judge (handle_leave_room s r).host_sid ca ct (handle_leave_room s r) =
      handle_leave_room s r := by
  have hleave : handle_leave_room s r = { r with players := playersPop r.players s } := by
    simp [handle_leave_room, hp]
  rw [hleave]
  refine ⟨hb, hq, ?_⟩
  simp [handle_judge, hb, playersGet_pop_self]

theorem judge_after_buzzer_leave_noop_witness :
    (handle_leave_room "a" roomC1).current_buzzer = some "a" ∧
    "a" ∈ (handle_leave_room "a" roomC1).buzz_queue ∧
    handle_judge (handle_leave_room "a" roomC1).host_sid true false
        (handle_leave_room "a" roomC1) =
      handle_leave_room "a" roomC1 :=
  judge_after_buzzer_leave_noop roomC1 "a" ⟨"Alice", 0, true⟩ (by decide) (by decide)
    (by decide) true false

/-- Claim C5: a judge call with both flags false (0 points) never increases any
score (the player table is untouched), adds the judged connection to the
lockout set, removes it from the head of the buzz queue, advances
`current_buzzer` to the next queue head or none, and forces the round
inactive when every currently-connected player is then locked out. -/
theorem judge_zero_points_lockout (r : Room) (b : String) (p : Player)
    (rest : List String)
    (hb : r.current_buzzer = some b) (hq : r.buzz_queue = b :: rest)
    (hp : playersGet r.players b = some p) :
    (handle_judge r.host_sid false false r).players = r.players ∧
    (handle_judge r.host_sid false false r).locked_out = insertSid r.locked_out b ∧
    (handle_judge r.host_sid false false r).buzz_queue = rest ∧
    (handle_judge r.host_sid false false r).current_buzzer = rest.head? ∧
    (allConnectedLocked r.players (insertSid r.locked_out b) = true →
      (handle_judge r.host_sid false false r).round_active = false) := by
  have herase : r.buzz_queue.erase b = rest := by
    rw [hq]
    exact List.erase_cons_head b rest
  simp only [handle_judge, ne_eq, not_true_eq_false, Bool.false_eq_true, if_false,
    hb, hp, Nat.add_zero, lt_self_iff_false, herase]
  split
  · exact ⟨rfl, rfl, rfl, rfl, fun _ => rfl⟩
  · rename_i hall
    refine ⟨rfl, rfl, rfl, rfl, ?_⟩
    intro h
    exact absurd h hall

theorem judge_zero_points_lockout_witness :
    (handle_judge roomW5.host_sid false false roomW5).players = roomW5.players ∧
    (handle_judge roomW5.host_sid false false roomW5).locked_out =
      insertSid roomW5.locked_out "a" ∧
    (handle_judge roomW5.host_sid false false roomW5).buzz_queue = ["b"] ∧
    (handle_judge roomW5.host_sid false false roomW5).current_buzzer = ["b"].head? ∧
    (allConnectedLocked roomW5.players (insertSid roomW5.locked_out "a") = true →
      (handle_judge roomW5.host_sid false false roomW5).round_active = false) :=
  judge_zero_points_lockout roomW5 "a" ⟨"Alice", 0, true⟩ ["b"] (by decide) (by decide)
    (by decide)

lemma buzz_fold {l : List String} : ∀ {r : Room},
    r.round_active = true →
    l.Nodup →
    (∀ s ∈ l, (playersGet r.players s).isSome) →
    (∀ s ∈ l, s ∉ r.locked_out) →
    (∀ s ∈ l, s ∉ r.buzz_queue) →
    (l.foldl (fun acc s => handle_buzz s acc) r).buzz_queue = r.buzz_queue ++ l ∧
    (l.foldl (fun acc s => handle_buzz s acc) r).current_buzzer =
      (if r.current_buzzer = none then l.head? else r.current_buzzer) := by
  induction l with
  | nil =>
    intro r _ _ _ _ _
    refine ⟨by simp, ?_⟩
    cases hc : r.current_buzzer <;> simp [hc]
  | cons s t ih =>
    intro r hA hnd hmem hlock hqueue
    rw [List.nodup_cons] at hnd
    rw [List.foldl_cons,
      handle_buzz_pass hA (hmem s (List.mem_cons_self _ _))
        (hqueue s (List.mem_cons_self _ _)) (hlock s (List.mem_cons_self _ _))]
    set r1 : Room :=
      { r with
          buzz_queue := r.buzz_queue ++ [s]
          current_buzzer :=
            if r.current_buzzer = none then some s else r.current_buzzer } with hr1
    have hA1 : r1.round_active = true := hA
    have hmem1 : ∀ x ∈ t, (playersGet r1.players x).isSome := fun x hx =>
      hmem x (List.mem_cons_of_mem _ hx)
    have hlock1 : ∀ x ∈ t, x ∉ r1.locked_out := fun x hx =>
      hlock x (List.mem_cons_of_mem _ hx)
    have hqueue1 : ∀ x ∈ t, x ∉ r1.buzz_queue := by
      intro x hx hmem'
      have hm : x ∈ r.buzz_queue ++ [s] := hmem'
      rw [List.mem_append] at hm
      rcases hm with h | h
      · exact hqueue x (List.mem_cons_of_mem _ hx) h
      · rw [List.mem_singleton] at h
        exact hnd.1 (h ▸ hx)
    obtain ⟨hq1, hb1⟩ := ih hA1 hnd.2 hmem1 hlock1 hqueue1
    refine ⟨?_, ?_⟩
    · rw [hq1]
      show r.buzz_queue ++ [s] ++ t = r.buzz_queue ++ s :: t
      simp
    · rw [hb1]
      show (if (if r.current_buzzer = none then some s else r.current_buzzer) = none
            then t.head?
            else if r.current_buzzer = none then some s else r.current_buzzer) =
          if r.current_buzzer = none then (s :: t).head? else r.current_buzzer
      cases hc : r.current_buzzer with
      | none => simp
      | some v => simp

/-- Claim C2: buzz calls applied one at a time to a fresh active round, by
pairwise-distinct room members that are not locked out, produce exactly the
call order as the buzz queue, with the first caller as current buzzer. -/
theorem buzz_sequence_order (r : Room) (l : List String)
    (hA : r.round_active = true) (hq : r.buzz_queue = [])
    (hb : r.current_buzzer = none) (hnd : l.Nodup)
    (hmem : ∀ s ∈ l, (playersGet r.players s).isSome)
    (hlock : ∀ s ∈ l, s ∉ r.locked_out) :
    (l.foldl (fun acc s => handle_buzz s acc) r).buzz_queue = l ∧
    (l.foldl (fun acc s => handle_buzz s acc) r).current_buzzer = l.head? := by
  obtain ⟨h1, h2⟩ := buzz_fold hA hnd hmem hlock (by simp [hq])
  rw [hq] at h1
  rw [hb] at h2
  exact ⟨by simpa using h1, by simpa using h2⟩

theorem buzz_sequence_order_witness :
    (["a", "b"].foldl (fun acc s => handle_buzz s acc) roomW2).buzz_queue = ["a", "b"] ∧
    (["a", "b"].foldl (fun acc s => handle_buzz s acc) roomW2).current_buzzer =
      (["a", "b"] : List String).head? :=
  buzz_sequence_order roomW2 ["a", "b"] (by decide) (by decide) (by decide) (by decide)
    (by decide) (by decide)

/-! Lemmas about the start-round draw pool. -/

lemma availableSongs_eq_nil {songs : List Song} {used : List Nat}
    (h : ∀ s ∈ songs, s.id ∈ used) : availableSongs songs used = [] := by
  rw [availableSongs, List.filter_eq_nil_iff]
  intro s hs
  simp [h s hs]

lemma startRoundPool_eq_nil_iff {songs : List Song} {used : List Nat} :
    startRoundPool songs used = [] ↔ songs = [] := by
  unfold startRoundPool
  by_cases h : (availableSongs songs used).isEmpty
  · simp [h]
  · rw [if_neg h]
    constructor
    · intro ha
      rw [List.isEmpty_iff] at h
      exact absurd ha h
    · rintro rfl
      exact absurd rfl h

lemma mem_of_mem_startRoundPool {songs : List Song} {used : List Nat} {song : Song}
    (h : song ∈ startRoundPool songs used) : song ∈ songs := by
  unfold startRoundPool at h
  split at h
  · exact h
  · exact (List.mem_filter.mp h).1

lemma startRoundPool_get_isSome (songs : List Song) (used : List Nat) (k : Nat)
    (h : songs ≠ []) :
    ∃ song, (startRoundPool songs used).get? (k % (startRoundPool songs used).length) =
      some song := by
  have hp : startRoundPool songs used ≠ [] := fun hh => h (startRoundPool_eq_nil_iff.mp hh)
  have hlen : 0 < (startRoundPool songs used).length := List.length_pos.mpr hp
  cases hg : (startRoundPool songs used).get? (k % (startRoundPool songs used).length) with
  | none =>
    rw [List.get?_eq_none] at hg
    exact absurd hg (Nat.not_le.mpr (Nat.mod_lt _ hlen))
  | some s => exact ⟨s, rfl⟩

/-- Claim C7: `StartRound` fails with the no-songs error exactly when the catalog
is empty; when every catalog song is already used (and the catalog is not
empty) it clears `usedSongIDs` and draws from the full pool; every
successful draw sets `currentSong` to the drawn catalog song, marks its id
used, activates the round, and clears the queue, buzzer, and lockouts. -/
theorem start_round_pool_reset (songs : List Song) (k : Nat) (r : Room) (sid : String)
    (hhost : r.host_sid = sid) (hend : r.game_ended = false) :
    ((handle_start_round sid songs k r).2 = some "Keine Songs verfügbar" ↔ songs = []) ∧
    ((∀ s ∈ songs, s.id ∈ r.used_song_ids) → songs ≠ [] →
      ∃ song, song ∈ songs ∧
        handle_start_round sid songs k r =
          ({ r with
              used_song_ids := [song.id]
              current_song := some song
              round_active := true
              buzz_queue := []
              current_buzzer := none
              locked_out := [] }, none)) ∧
    ((handle_start_round sid songs k r).2 = none →
      (handle_start_round sid songs k r).1.round_active = true ∧
      (handle_start_round sid songs k r).1.buzz_queue = [] ∧
      (handle_start_round sid songs k r).1.current_buzzer = none ∧
      (handle_start_round sid songs k r).1.locked_out = [] ∧
      ∃ song, song ∈ songs ∧
        (handle_start_round sid songs k r).1.current_song = some song ∧
        song.id ∈ (handle_start_round sid songs k r).1.used_song_ids) := by
  have hno : ¬ r.host_sid ≠ sid := by simp [hhost]
  by_cases hsongs : songs = []
  · subst hsongs
    have hg : (startRoundPool [] r.used_song_ids).get?
        (k % (startRoundPool [] r.used_song_ids).length) = none := rfl
    simp only [handle_start_round, hno, if_false, hend, Bool.false_eq_true, hg]
    refine ⟨by simp, ?_, ?_⟩
    · intro _ hne
      exact absurd rfl hne
    · intro h2
      exact absurd h2 (by simp)
  · obtain ⟨song0, hg⟩ := startRoundPool_get_isSome songs r.used_song_ids k hsongs
    have hunfold : handle_start_round sid songs k r =
        ({ r with
            used_song_ids := insertSongId (startRoundUsed0 songs r.used_song_ids) song0.id
            current_song := some song0
            round_active := true
            buzz_queue := []
            current_buzzer := none
            locked_out := [] }, none) := by
      simp only [handle_start_round, hno, if_false, hend, Bool.false_eq_true, hg]
    refine ⟨?_, ?_, ?_⟩
    · rw [hunfold]
      simp [hsongs]
    · intro hall _
      have hav : availableSongs songs r.used_song_ids = [] := availableSongs_eq_nil hall
      have hused0 : startRoundUsed0 songs r.used_song_ids = [] := by
        simp [startRoundUsed0, hav]
      refine ⟨song0, mem_of_mem_startRoundPool (List.get?_mem hg), ?_⟩
      rw [hunfold, hused0]
      simp [insertSongId]
    · intro _
      rw [hunfold]
      exact ⟨rfl, rfl, rfl, rfl, song0, mem_of_mem_startRoundPool (List.get?_mem hg),
        rfl, mem_insertSongId_self⟩

theorem start_round_pool_reset_witness :
    ((handle_start_round "h" [songA, songB] 0 roomW7).2 = some "Keine Songs verfügbar" ↔
        ([songA, songB] : List Song) = []) ∧
    ∃ song, song ∈ [songA, songB] ∧
      handle_start_round "h" [songA, songB] 0 roomW7 =
        ({ roomW7 with
            used_song_ids := [song.id]
            current_song := some song
            round_active := true
            buzz_queue := []
            current_buzzer := none
            locked_out := [] }, none) := by
  have h := start_round_pool_reset [songA, songB] 0 roomW7 "h" (by decide) (by decide)
  exact ⟨h.1, h.2.1 (by decide) (by decide)⟩

/-- Claim C3: a join whose name matches a disconnected player case-insensitively
transfers the record of that player to the new connection: the inherited record
keeps the old score, the old id is substituted by the new one position-wise
in the buzz queue, in `current_buzzer` if it was the old id, and in the
lockout set, and the old connection id no longer appears anywhere in the
room state. -/
theorem rejoin_transfers_identity (r : Room) (sid name old : String) (pd : Player)
    (hname : name ≠ "") (hend : r.game_ended = false)
    (hfind : findRejoin r.players name = some (old, pd))
    (hsid : playersGet r.players sid = none) (hsl : sid ∉ r.locked_out) :
    (handle_join_room sid name r).2 = none ∧
    playersGet (handle_join_room sid name r).1.players sid =
      some { pd with connected := true } ∧
    (handle_join_room sid name r).1.buzz_queue = subSid old sid r.buzz_queue ∧
    (handle_join_room sid name r).1.current_buzzer =
      (if r.current_buzzer = some old then some sid else r.current_buzzer) ∧
    (sid ∈ (handle_join_room sid name r).1.locked_out ↔ old ∈ r.locked_out) ∧
    playersGet (handle_join_room sid name r).1.players old = none ∧
    old ∉ (handle_join_room sid name r).1.buzz_queue ∧
    (handle_join_room sid name r).1.current_buzzer ≠ some old ∧
    old ∉ (handle_join_room sid name r).1.locked_out := by
  have hne : sid ≠ old := by
    intro h
    have hs := findRejoin_key_isSome hfind
    rw [← h, hsid] at hs
    simp at hs
  have hunfold : handle_join_room sid name r =
      ({ r with
          players := playersPop r.players old ++ [(sid, { pd with connected := true })]
          buzz_queue := subSid old sid r.buzz_queue
          current_buzzer :=
            if r.current_buzzer = some old then some sid else r.current_buzzer
          locked_out :=
            if old ∈ r.locked_out then insertSid (discardSid r.locked_out old) sid
            else r.locked_out }, none) := by
    simp only [handle_join_room, if_neg hname, hend, Bool.false_eq_true, if_false, hfind]
  rw [hunfold]
  refine ⟨rfl, ?_, rfl, rfl, ?_, ?_, ?_, ?_, ?_⟩
  · rw [playersGet_append_left_none (playersGet_pop_of_none hsid)]
    simp [playersGet]
  · by_cases ho : old ∈ r.locked_out
    · simp only [if_pos ho]
      exact iff_of_true (mem_insertSid.mpr (Or.inr rfl)) ho
    · simp only [if_neg ho]
      exact iff_of_false hsl ho
  · rw [playersGet_append_left_none (playersGet_pop_self r.players old)]
    simp [playersGet, hne]
  · exact not_mem_subSid_old hne
  · by_cases hc : r.current_buzzer = some old
    · simp only [if_pos hc, ne_eq, Option.some.injEq]
      exact hne
    · simp only [if_neg hc, ne_eq]
      exact hc
  · by_cases ho : old ∈ r.locked_out
    · simp only [if_pos ho]
      intro h
      rw [mem_insertSid] at h
      rcases h with h | h
      · exact (mem_discardSid.mp h).2 rfl
      · exact hne h.symm
    · simp only [if_neg ho]
      exact ho

theorem rejoin_transfers_identity_witness :
    (handle_join_room "n" "alice" roomW3).2 = none ∧
    playersGet (handle_join_room "n" "alice" roomW3).1.players "n" =
      some { (⟨"Alice", 3, false⟩ : Player) with connected := true } ∧
    (handle_join_room "n" "alice" roomW3).1.buzz_queue =
      subSid "o" "n" roomW3.buzz_queue ∧
    (handle_join_room "n" "alice" roomW3).1.current_buzzer =
      (if roomW3.current_buzzer = some "o" then some "n" else roomW3.current_buzzer) ∧
    ("n" ∈ (handle_join_room "n" "alice" roomW3).1.locked_out ↔
      "o" ∈ roomW3.locked_out) ∧
    playersGet (handle_join_room "n" "alice" roomW3).1.players "o" = none ∧
    "o" ∉ (handle_join_room "n" "alice" roomW3).1.buzz_queue ∧
    (handle_join_room "n" "alice" roomW3).1.current_buzzer ≠ some "o" ∧
    "o" ∉ (handle_join_room "n" "alice" roomW3).1.locked_out :=
  rejoin_transfers_identity roomW3 "n" "alice" "o" ⟨"Alice", 3, false⟩ (by decide)
    (by decide) (by decide) (by decide) (by decide)

/-! Preservation of `Inv` under a fresh-join discipline.  The rejoin
substitution in `handle_join_room` makes `Inv` violable by a live member
re-joining under a ghost name (see the closing counterexample), so the
inductive proof needs the `opsOK` freshness side condition on joins. -/

lemma inv_of_same_fields {r r' : Room} (h : Inv r) (hq : r'.buzz_queue = r.buzz_queue)
    (hl : r'.locked_out = r.locked_out) (hb : r'.current_buzzer = r.current_buzzer) :
    Inv r' := by
  unfold Inv at h ⊢
  rw [hq, hl, hb]
  exact h

lemma inv_initRoom (h : String) (ms : Nat) : Inv (initRoom h ms) := by
  refine ⟨?_, ?_, ?_⟩ <;> simp [initRoom]

lemma inv_handle_leave {sid : String} {r : Room} (h : Inv r) :
    Inv (handle_leave_room sid r) := by
  unfold handle_leave_room
  split
  · exact inv_of_same_fields h rfl rfl rfl
  · exact h

lemma inv_handle_disconnect {sid : String} {r : Room} (h : Inv r) :
    Inv (handle_disconnect sid r) := by
  unfold handle_disconnect
  split
  · exact inv_of_same_fields h rfl rfl rfl
  · split
    · exact inv_of_same_fields h rfl rfl rfl
    · exact h

lemma inv_handle_start_game {sid : String} {r : Room} (h : Inv r) :
    Inv (handle_start_game sid r).1 := by
  unfold handle_start_game
  split
  · exact h
  · split
    · exact h
    · exact inv_of_same_fields h rfl rfl rfl

lemma inv_handle_host_rejoin {sid : String} {r : Room} (h : Inv r) :
    Inv (handle_host_rejoin sid r).1 := by
  unfold handle_host_rejoin
  split
  · exact inv_of_same_fields h rfl rfl rfl
  · exact h

lemma inv_handle_end_game {sid : String} {r : Room} (h : Inv r) :
    Inv (handle_end_game sid r) := by
  unfold handle_end_game
  split
  · exact h
  · split
    · exact inv_of_same_fields h rfl rfl rfl
    · exact inv_of_same_fields h rfl rfl rfl

lemma inv_handle_skip_round {sid : String} {r : Room} (h : Inv r) :
    Inv (handle_skip_round sid r) := by
  unfold handle_skip_round
  split
  · exact h
  · exact ⟨List.nodup_nil, by simp, by simp⟩

lemma inv_handle_start_round {sid : String} {songs : List Song} {k : Nat} {r : Room}
    (h : Inv r) : Inv (handle_start_round sid songs k r).1 := by
  unfold handle_start_round
  split
  · exact h
  · split
    · exact h
    · split
      · exact inv_of_same_fields h rfl rfl rfl
      · exact ⟨List.nodup_nil, by simp, by simp⟩

lemma inv_handle_buzz {sid : String} {r : Room} (h : Inv r) :
    Inv (handle_buzz sid r) := by
  by_cases hA : r.round_active = false
  · rw [handle_buzz_noop sid (Or.inl hA)]
    exact h
  by_cases hB : playersGet r.players sid = none
  · rw [handle_buzz_noop sid (Or.inr (Or.inl hB))]
    exact h
  by_cases hQ : sid ∈ r.buzz_queue
  · rw [handle_buzz_noop sid (Or.inr (Or.inr (Or.inl hQ)))]
    exact h
  by_cases hL : sid ∈ r.locked_out
  · rw [handle_buzz_noop sid (Or.inr (Or.inr (Or.inr hL)))]
    exact h
  have hA' : r.round_active = true := by
    revert hA
    cases r.round_active <;> simp
  have hB' : (playersGet r.players sid).isSome := by
    revert hB
    cases playersGet r.players sid <;> simp
  rw [handle_buzz_pass hA' hB' hQ hL]
  refine ⟨?_, ?_, ?_⟩
  · rw [List.nodup_append]
    exact ⟨h.1, List.nodup_singleton sid,
      fun x hx hx' => hQ ((List.mem_singleton.mp hx') ▸ hx)⟩
  · intro x hx
    have hx' : x ∈ r.buzz_queue ++ [sid] := hx
    rw [List.mem_append] at hx'
    rcases hx' with hx' | hx'
    · exact h.2.1 x hx'
    · rw [List.mem_singleton] at hx'
      exact hx' ▸ hL
  · intro b hb
    have hb' : (if r.current_buzzer = none then some sid else r.current_buzzer) = some b :=
      hb
    show b ∈ r.buzz_queue ++ [sid]
    by_cases hc : r.current_buzzer = none
    · rw [if_pos hc] at hb'
      obtain rfl : sid = b := by simpa using hb'
      simp
    · rw [if_neg hc] at hb'
      exact List.mem_append_left _ (h.2.2 b hb')

lemma inv_handle_judge {sid : String} {ca ct : Bool} {r : Room} (h : Inv r) :
    Inv (handle_judge sid ca ct r) := by
  by_cases hh : r.host_sid ≠ sid
  · have hrw : handle_judge sid ca ct r = r := by simp [handle_judge, hh]
    rw [hrw]
    exact h
  cases hbz : r.current_buzzer with
  | none =>
    have hrw : handle_judge sid ca ct r = r := by simp [handle_judge, hh, hbz]
    rw [hrw]
    exact h
  | some bz =>
    cases hp : playersGet r.players bz with
    | none =>
      have hrw : handle_judge sid ca ct r = r := by simp [handle_judge, hh, hbz, hp]
      rw [hrw]
      exact h
    | some buzzer =>
      by_cases hpts : 0 < (if ca then 1 else 0) + (if ct then 1 else 0)
      · by_cases hw : r.max_score ≤ buzzer.score + ((if ca then 1 else 0) + (if ct then 1 else 0))
        · simp only [handle_judge, hh, ite_not, hbz, hp, if_pos hpts, if_pos hw]
          exact ⟨h.1, h.2.1, by simp⟩
        · simp only [handle_judge, hh, ite_not, hbz, hp, if_pos hpts, if_neg hw]
          exact ⟨h.1, h.2.1, by simp⟩
      · have h0 : ((if ca then 1 else 0) + (if ct then 1 else 0) : Nat) = 0 :=
          Nat.le_zero.mp (Nat.not_lt.mp hpts)
        have hnodup' : (r.buzz_queue.erase bz).Nodup := h.1.erase bz
        have hq' : ∀ x, x ∈ r.buzz_queue.erase bz → x ≠ bz ∧ x ∈ r.buzz_queue :=
          fun x hx => h.1.mem_erase_iff.mp hx
        have hlock' : ∀ x ∈ r.buzz_queue.erase bz, x ∉ insertSid r.locked_out bz := by
          intro x hx hmem
          rw [mem_insertSid] at hmem
          rcases hmem with hm | hm
          · exact h.2.1 x (hq' x hx).2 hm
          · exact (hq' x hx).1 hm
        have hbuzz' : ∀ b, (r.buzz_queue.erase bz).head? = some b →
            b ∈ r.buzz_queue.erase bz := fun b hb => head?_mem hb
        by_cases hall : allConnectedLocked r.players (insertSid r.locked_out bz) = true
        · simp only [handle_judge, hh, ite_not, hbz, hp, h0, lt_self_iff_false, if_false,
            if_pos hall]
          exact ⟨hnodup', hlock', hbuzz'⟩
        · simp only [handle_judge, hh, ite_not, hbz, hp, h0, lt_self_iff_false, if_false,
            if_neg hall]
          exact ⟨hnodup', hlock', hbuzz'⟩

lemma inv_handle_join {sid name : String} {r : Room} (h : Inv r)
    (hfresh : freshConn r sid = true) : Inv (handle_join_room sid name r).1 := by
  simp only [freshConn, Bool.and_eq_true, decide_eq_true_eq] at hfresh
  have hfq : sid ∉ r.buzz_queue := hfresh.1.1.2
  have hfl : sid ∉ r.locked_out := hfresh.1.2
  by_cases hn : name = ""
  · have hrw : (handle_join_room sid name r).1 = r := by simp [handle_join_room, hn]
    rw [hrw]
    exact h
  by_cases he : r.game_ended = true
  · have hrw : (handle_join_room sid name r).1 = r := by simp [handle_join_room, hn, he]
    rw [hrw]
    exact h
  have he' : r.game_ended = false := by
    revert he
    cases r.game_ended <;> simp
  cases hf : findRejoin r.players name with
  | none =>
    by_cases hc : 8 ≤ r.players.length
    · have hrw : (handle_join_room sid name r).1 = r := by
        simp [handle_join_room, hn, he', hf, hc]
      rw [hrw]
      exact h
    · have hrw : (handle_join_room sid name r).1 =
          { r with players := r.players ++ [(sid, ⟨name, 0, true⟩)] } := by
        simp [handle_join_room, hn, he', hf, hc]
      rw [hrw]
      exact inv_of_same_fields h rfl rfl rfl
  | some op =>
    have hrw : (handle_join_room sid name r).1 =
        { r with
            players := playersPop r.players op.1 ++ [(sid, { op.2 with connected := true })]
            buzz_queue := subSid op.1 sid r.buzz_queue
            current_buzzer :=
              if r.current_buzzer = some op.1 then some sid else r.current_buzzer
            locked_out :=
              if op.1 ∈ r.locked_out then insertSid (discardSid r.locked_out op.1) sid
              else r.locked_out } := by
      simp only [handle_join_room, if_neg hn, he', Bool.false_eq_true, if_false, hf]
    rw [hrw]
    refine ⟨?_, ?_, ?_⟩
    · show (subSid op.1 sid r.buzz_queue).Nodup
      exact subSid_nodup h.1 hfq
    · intro x hx
      have hx' : x ∈ subSid op.1 sid r.buzz_queue := hx
      show x ∉ (if op.1 ∈ r.locked_out then insertSid (discardSid r.locked_out op.1) sid
        else r.locked_out)
      by_cases ho : op.1 ∈ r.locked_out
      · rw [if_pos ho]
        have hoq : op.1 ∉ r.buzz_queue := fun hq => h.2.1 op.1 hq ho
        rw [subSid_eq_of_not_mem hoq] at hx'
        intro hmem
        rw [mem_insertSid] at hmem
        rcases hmem with hm | hm
        · exact h.2.1 x hx' (mem_discardSid.mp hm).1
        · exact hfq (hm ▸ hx')
      · rw [if_neg ho]
        rw [mem_subSid] at hx'
        obtain ⟨y, hy, hye⟩ := hx'
        by_cases hyo : y = op.1
        · rw [if_pos hyo] at hye
          subst hye
          exact hfl
        · rw [if_neg hyo] at hye
          subst hye
          exact h.2.1 y hy
    · intro b hb
      have hb' : (if r.current_buzzer = some op.1 then some sid else r.current_buzzer) =
          some b := hb
      show b ∈ subSid op.1 sid r.buzz_queue
      by_cases hc : r.current_buzzer = some op.1
      · rw [if_pos hc] at hb'
        obtain rfl : sid = b := by simpa using hb'
        exact new_mem_subSid (h.2.2 op.1 hc)
      · rw [if_neg hc] at hb'
        have hbq := h.2.2 b hb'
        have hbo : b ≠ op.1 := fun hh => hc (hh ▸ hb')
        exact mem_subSid_of_mem hbq hbo

lemma inv_step {songs : List Song} {r : Room} {op : Op} (h : Inv r)
    (hfresh : (match op with
               | Op.join sid _ => freshConn r sid
               | _ => true) = true) :
    Inv (step songs r op) := by
  cases op with
  | join sid name => exact inv_handle_join h hfresh
  | leave sid => exact inv_handle_leave h
  | disconnect sid => exact inv_handle_disconnect h
  | startGame sid => exact inv_handle_start_game h
  | startRound sid k => exact inv_handle_start_round h
  | buzz sid => exact inv_handle_buzz h
  | judge sid ca ct => exact inv_handle_judge h
  | skipRound sid => exact inv_handle_skip_round h
  | endGame sid => exact inv_handle_end_game h
  | hostRejoin sid => exact inv_handle_host_rejoin h

lemma inv_runOps {songs : List Song} : ∀ (ops : List Op) (r : Room), Inv r →
    opsOK songs r ops = true → Inv (runOps songs r ops) := by
  intro ops
  induction ops with
  | nil => exact fun r h _ => h
  | cons op rest ih =>
    intro r h hok
    unfold opsOK at hok
    rw [Bool.and_eq_true] at hok
    exact ih (step songs r op) (inv_step h hok.1) hok.2

/-- Under the fresh-join discipline (every joining connection id absent from
the room state), the current buzzer, when set, is an element of the buzz
queue and is not locked out, in every state reachable from room creation.
The discipline is strictly stronger than what the code enforces: the next
theorem shows the unrestricted system violates the property. -/
theorem current_buzzer_invariant_reachable (songs : List Song) (host : String)
    (ms : Nat) (ops : List Op) (b : String)
    (hok : opsOK songs (initRoom host ms) ops = true)
    (hb : (runOps songs (initRoom host ms) ops).current_buzzer = some b) :
    b ∈ (runOps songs (initRoom host ms) ops).buzz_queue ∧
    b ∉ (runOps songs (initRoom host ms) ops).locked_out := by
  have hInv := inv_runOps ops (initRoom host ms) (inv_initRoom host ms) hok
  have hmem := hInv.2.2 b hb
  exact ⟨hmem, hInv.2.1 b hmem⟩

theorem current_buzzer_invariant_reachable_witness :
    "a" ∈ (runOps songsW (initRoom "h" 10) opsW).buzz_queue ∧
    "a" ∉ (runOps songsW (initRoom "h" 10) opsW).locked_out :=
  current_buzzer_invariant_reachable songsW "h" 10 opsW "a" (by decide) (by decide)

/-- Claim C9 (code bug evidence): the buzzer invariant is violated by a
reachable sequence of the listed operations with pairwise-distinct
connection ids.  In `opsC9`, member `x` is judged wrong (locked out, queue
head passes to ghost `g`), then re-sends `join_room` with the ghost name:
`handle_join_room` has no guard against an already-joined connection, so
the rejoin substitution hands `x` the queue position and `current_buzzer`
slot of `g` while `locked_out` still contains `x`.  The final state has
`current_buzzer = some x` with `x` both queued and locked out, violating
the invariant the claim states. -/
theorem rejoin_by_live_member_breaks_buzzer_invariant :
    (runOps songsW (initRoom "h" 10) opsC9).current_buzzer = some "x" ∧
    "x" ∈ (runOps songsW (initRoom "h" 10) opsC9).buzz_queue ∧
    "x" ∈ (runOps songsW (initRoom "h" 10) opsC9).locked_out ∧
    (runOps songsW (initRoom "h" 10) opsC9).round_active = true := by
  decide

end BeatGuessr
